import Mathlib

/-!
Verification of the LXP txt/video batch bot (`fullbatch.py`, `main.py`,
`utils.py`, `core.py`) against its natural-language specification.

The Python code is shallowly embedded: pure fragments become Lean
functions over `List`/`Option`/`String`, the interactive handlers become
explicit state-passing functions, and the transfer loop becomes a fold
over per-item outcomes.  Machine reals used by the progress reporter are
modelled by `ℚ` (the quantities involved are exact in the source
formulas).
-/

namespace LXP

/-! ### Executable string and rational helpers

`String.trim`, `String.toLower`, `String.startsWith` and the `ℚ` field
operations are compiled primitives whose Lean definitions do not reduce
inside the kernel, so the embedding uses its own executable versions.
The rational ones are proved equal to the field operations below
(`qmul_eq`, `qdiv_eq`, `qsub_eq`, `qltb_eq`), so theorems can be stated
with ordinary `ℚ` arithmetic. -/

/-- Python `str.strip()`: drop whitespace from both ends. -/
def pyStrip (s : String) : String :=
  String.mk ((s.data.dropWhile Char.isWhitespace).reverse.dropWhile
    Char.isWhitespace).reverse

/-- Python `str.lower()` for the ASCII names appearing in scripts. -/
def pyLower (s : String) : String := String.mk (s.data.map Char.toLower)

/-- Python `str.startswith(pre)`. -/
def pyStartsWith (s pre : String) : Bool := pre.data.isPrefixOf s.data

/-- Executable `ℚ` multiplication. -/
def qmul (a b : ℚ) : ℚ := Rat.divInt (a.num * b.num) ((a.den : ℤ) * (b.den : ℤ))

/-- Executable `ℚ` division (0 when the divisor is 0, as in Lean). -/
def qdiv (a b : ℚ) : ℚ := Rat.divInt (a.num * (b.den : ℤ)) ((a.den : ℤ) * b.num)

/-- Executable `ℚ` subtraction. -/
def qsub (a b : ℚ) : ℚ :=
  Rat.divInt (a.num * (b.den : ℤ) - b.num * (a.den : ℤ)) ((a.den : ℤ) * (b.den : ℤ))

/-- Executable `ℚ` strict comparison. -/
def qltb (a b : ℚ) : Bool := a.num * (b.den : ℤ) < b.num * (a.den : ℤ)

theorem qmul_eq (a b : ℚ) : qmul a b = a * b := by
  conv_rhs => rw [← Rat.num_divInt_den a, ← Rat.num_divInt_den b,
    Rat.divInt_mul_divInt']
  rfl

theorem qdiv_eq (a b : ℚ) : qdiv a b = a / b := (Rat.div_def' a b).symm

theorem qsub_eq (a b : ℚ) : qsub a b = a - b := by
  have ha : ((a.den : ℤ)) ≠ 0 := Int.natCast_ne_zero.mpr a.den_nz
  have hb : ((b.den : ℤ)) ≠ 0 := Int.natCast_ne_zero.mpr b.den_nz
  conv_rhs => rw [← Rat.num_divInt_den a, ← Rat.num_divInt_den b,
    Rat.divInt_sub_divInt _ _ ha hb]
  rfl

theorem qltb_eq (a b : ℚ) : qltb a b = true ↔ a < b := by
  rw [qltb, decide_eq_true_eq]
  have ha : (0 : ℚ) < (a.den : ℚ) := by exact_mod_cast a.pos
  have hb : (0 : ℚ) < (b.den : ℚ) := by exact_mod_cast b.pos
  have key : a < b ↔ (a.num : ℚ) / (a.den : ℚ) < (b.num : ℚ) / (b.den : ℚ) := by
    rw [Rat.num_div_den, Rat.num_div_den]
  rw [key, div_lt_div_iff₀ ha hb]
  constructor <;> intro h <;> exact_mod_cast h

/-! ### Start-index clipping (`fullbatch.py`, `process_downloads`)

`to_process = links[start_idx - 1:] if start_idx > 1 else links`
(line 428).  Start indexes are Python ints, so the index parameter is
`ℤ`; every stored index is ≥ 1 (see `custom_start_index` below). -/

/-- Embedding of `links[start_idx - 1:] if start_idx > 1 else links`. -/
def to_process (links : List (String × String)) (k : ℤ) : List (String × String) :=
  if k > 1 then links.drop (k - 1).toNat else links

/-! ### The select/unselect-all toggle (`fullbatch.py`, `handle_button`)

Lines 288-299: on `toggle_all`, if `len(sel) == len(subs) and bool(subs)`
the selection is cleared, otherwise it is replaced by `set(subs)`.
`subs` is `state["subject_list"]` (the parsed subjects, in order) and
`sel` is the set `state["selected_subjects"]`. -/

/-- Embedding of the `toggle_all` branch of `handle_button`. -/
def toggle_all (subs : List String) (sel : Finset String) : Finset String :=
  if sel.card = subs.length ∧ subs ≠ [] then ∅ else subs.toFinset

/-! ### Custom start-index entry (`fullbatch.py`, `handle_button`, lines 342-349)

```
idx = int(resp.text.strip())
if idx < 1: idx = 1
except Exception: idx = 1
```
`pyInt` models Python `int(...)` on an optionally-signed string of ASCII
decimal digits (the only shapes relevant here; `int` additionally
tolerates underscore separators and non-ASCII digits, which the bot's
operators never send and which still parse to the same values when they
do parse). -/

/-- Digits-to-number accumulator for `pyInt`. -/
def digitsVal (cs : List Char) : ℕ :=
  cs.foldl (fun n c => 10 * n + (c.toNat - '0'.toNat)) 0

/-- Model of Python `int(s)` for an already-stripped string `s`:
an optional sign followed by at least one decimal digit. -/
def pyInt (s : String) : Option ℤ :=
  match s.data with
  | [] => none
  | '-' :: rest =>
      if rest ≠ [] ∧ rest.all Char.isDigit then some (-(digitsVal rest : ℤ)) else none
  | '+' :: rest =>
      if rest ≠ [] ∧ rest.all Char.isDigit then some (digitsVal rest : ℤ) else none
  | cs =>
      if cs.all Char.isDigit then some (digitsVal cs : ℤ) else none

/-- Embedding of the custom start-index handler: `int(resp.text.strip())`,
coercing a parse failure or a value below 1 to 1. -/
def custom_start_index (text : String) : ℤ :=
  match pyInt (pyStrip text) with
  | some i => if i < 1 then 1 else i
  | none => 1

/-- The start-index validation in `main.py`'s `upload` (lines 118-123),
which additionally coerces an entry above the link count to 1. -/
def main_start_index (text : String) (numLinks : ℕ) : ℤ :=
  match pyInt (pyStrip text) with
  | some i => if i < 1 ∨ i > (numLinks : ℤ) then 1 else i
  | none => 1

/-! ### The link catalogue

`parse_file` builds `defaultdict` nests
`subject → chapter → category → list[(label, url)]`; the only categories
it ever writes (and the only ones `process_downloads` reads) are
`"Lectures"` and `"DPP Videos"`.  Python dicts preserve insertion order,
so the maps are embedded as association lists where a missing key is
appended at the end. -/

/-- One chapter's category lists: `contents["Lectures"]` and
`contents["DPP Videos"]`. -/
structure Chapter where
  lectures : List (String × String)
  dppVideos : List (String × String)
deriving DecidableEq, Repr

/-- The empty chapter a `defaultdict` access creates. -/
def Chapter.empty : Chapter := ⟨[], []⟩

/-- `subject → chapter → Chapter`, both levels in insertion order. -/
def Catalogue := List (String × List (String × Chapter))

instance : DecidableEq Catalogue := by
  unfold Catalogue; infer_instance

/-- Insertion-ordered map update: modify the value at key `k`, creating
it from `d` at the end when absent (Python `defaultdict` semantics). -/
def updAssoc {β : Type} (k : String) (d : β) (f : β → β) :
    List (String × β) → List (String × β)
  | [] => [(k, f d)]
  | (k', v) :: rest =>
      if k' = k then (k', f v) :: rest else (k', v) :: updAssoc k d f rest

/-- Append an item to a chapter's `"Lectures"` list. -/
def Chapter.addLecture (item : String × String) (c : Chapter) : Chapter :=
  { c with lectures := c.lectures ++ [item] }

/-- Append an item to a chapter's `"DPP Videos"` list. -/
def Chapter.addDpp (item : String × String) (c : Chapter) : Chapter :=
  { c with dppVideos := c.dppVideos ++ [item] }

/-- `data[subject][chapter][category].append(item)` on the nested
`defaultdict`s. -/
def addItem (cat : Catalogue) (subj chap : String) (f : Chapter → Chapter) :
    Catalogue :=
  updAssoc subj [] (updAssoc chap Chapter.empty f) cat

/-- Key lookup in an insertion-ordered map (read-only counterpart of
`updAssoc`). -/
def lookupStr {β : Type} (k : String) : List (String × β) → Option β
  | [] => none
  | (k', v) :: rest => if k' = k then some v else lookupStr k rest

/-- The `"DPP Videos"` list of `data[subj][chap]`, `[]` when absent
(read-only view used to state non-interference facts). -/
def dppListOf (cat : Catalogue) (subj chap : String) : List (String × String) :=
  ((lookupStr chap ((lookupStr subj cat).getD [])).getD Chapter.empty).dppVideos

/-! ### Label ordering and the per-subject flattening
(`fullbatch.py`, `process_downloads` lines 407-421) -/

/-- Lexicographic code-point comparison of char lists: Python string
`<=` (both Python and Lean order strings by Unicode code point). -/
def charListLe : List Char → List Char → Bool
  | [], _ => true
  | _ :: _, [] => false
  | a :: as, b :: bs =>
      if a.toNat < b.toNat then true
      else if b.toNat < a.toNat then false
      else charListLe as bs

/-- Python `<=` on the labels of two `(label, url)` pairs. -/
def labelLe (p q : String × String) : Bool := charListLe p.1.data q.1.data

/-- Stable insert for `sortByLabel`: an element goes before the first
existing element whose label is `≥` its own. -/
def insertByLabel (p : String × String) :
    List (String × String) → List (String × String)
  | [] => [p]
  | q :: rest => if labelLe p q then p :: q :: rest else q :: insertByLabel p rest

/-- Model of Python `sorted(items, key=lambda x: x[0])`: a stable sort
by label (insertion sort is stable, like Python's sort). -/
def sortByLabel : List (String × String) → List (String × String)
  | [] => []
  | p :: rest => insertByLabel p (sortByLabel rest)

/-- Python `str.zfill(width)` for an unsigned digit string. -/
def zfill (width : ℕ) (s : String) : String :=
  if width ≤ s.length then s
  else String.mk (List.replicate (width - s.length) '0') ++ s

/-- Helper for `firstDigitRun`: scan for the first decimal digit and
take the maximal digit run from there. -/
def firstDigitRunAux : List Char → Option (List Char)
  | [] => none
  | c :: rest =>
      if c.isDigit then some (c :: rest.takeWhile Char.isDigit)
      else firstDigitRunAux rest

/-- Model of `re.search(r"\d+", s)` returning `m.group()`: the first
maximal run of decimal digits in `s`, if any. -/
def firstDigitRun (s : String) : Option String :=
  (firstDigitRunAux s.data).map String.mk

/-- The chapter-number label tag computed in `process_downloads`
(lines 411-416): `"CH " + zfill(2, first digit run) + " "`, or `""`
when the chapter name has no digit. -/
def chapPfx (chapName : String) : String :=
  match firstDigitRun chapName with
  | some num => "CH " ++ zfill 2 num ++ " "
  | none => ""

/-- Imperative flattening of one subject (lines 408-421): iterate the
chapters in catalogue order, appending first the sorted `"Lectures"`
then the sorted `"DPP Videos"`, each label tagged with the chapter
tag.  Translated statement-by-statement from the `items.append` loop. -/
def subjectItems (chapters : List (String × Chapter)) : List (String × String) :=
  chapters.foldl
    (fun items c =>
      let pfx := chapPfx c.1
      let items1 := (sortByLabel c.2.lectures).foldl
        (fun acc p => acc ++ [(pfx ++ p.1, p.2)]) items
      (sortByLabel c.2.dppVideos).foldl
        (fun acc p => acc ++ [(pfx ++ p.1, p.2)]) items1)
    []

/-! ### The script parser (`fullbatch.py`, `parse_file`, lines 64-103)

The four regexes of `parse_file` are deterministic (their repeated
character classes exclude the character that must follow, so no
backtracking choice ever matters); each is embedded as a direct scanner
over the line's characters. -/

/-- Match the pattern `!ESC!\[[0-9;]+m` at the head of the char list;
on success return the remainder after the match. -/
def matchAnsiAt : List Char → Option (List Char)
  | '!' :: 'E' :: 'S' :: 'C' :: '!' :: '[' :: rest =>
      let body := rest.takeWhile (fun c => c.isDigit || c = ';')
      if body.isEmpty then none
      else
        match rest.drop body.length with
        | 'm' :: tail => some tail
        | _ => none
  | _ => none

/-- Fuelled left-to-right non-overlapping removal for `remove_ansi`
(fuel = list length suffices: each step consumes at least one char). -/
def removeAnsiAux : ℕ → List Char → List Char
  | 0, cs => cs
  | _ + 1, [] => []
  | fuel + 1, c :: rest =>
      match matchAnsiAt (c :: rest) with
      | some tail => removeAnsiAux fuel tail
      | none => c :: removeAnsiAux fuel rest

/-- Embedding of `remove_ansi`: `re.sub(r"!ESC!\[[0-9;]+m", "", line)`. -/
def remove_ansi (line : String) : String :=
  String.mk (removeAnsiAux line.data.length line.data)

/-- Rest of the char list after the first occurrence of `pat`, if any
(the scanning core of `re.search` for a literal prefix). -/
def restAfter (pat : List Char) : List Char → Option (List Char)
  | [] => none
  | c :: rest =>
      if pat.isPrefixOf (c :: rest) then some ((c :: rest).drop pat.length)
      else restAfter pat rest

/-- Model of `re.search(r"\[SUBJECT\]\s*(.+)", line)` followed by
`.group(1).strip()`.  After the marker, `\s*(.+)` matches iff at least
one character remains, and the stripped capture is then the stripped
remainder (when the remainder is all whitespace, backtracking leaves a
single whitespace capture, which also strips to `""`). -/
def markerRest (marker : String) (line : String) : Option String :=
  match restAfter marker.data line.data with
  | some [] => none
  | some rest => some (pyStrip (String.mk rest))
  | none => none

/-- Model of `re.match(r'set\s+"([^=]+)=([^"\n]+)"', line)`, returning
the two capture groups. -/
def varMatch : List Char → Option (String × String)
  | 's' :: 'e' :: 't' :: rest =>
      let ws := rest.takeWhile Char.isWhitespace
      if ws.isEmpty then none
      else
        match rest.drop ws.length with
        | '"' :: rest2 =>
            let g1 := rest2.takeWhile (fun c => c ≠ '=')
            if g1.isEmpty then none
            else
              match rest2.drop g1.length with
              | '=' :: rest3 =>
                  let g2 := rest3.takeWhile (fun c => c ≠ '"' && c ≠ '\n')
                  if g2.isEmpty then none
                  else
                    match rest3.drop g2.length with
                    | '"' :: _ => some (String.mk g1, String.mk g2)
                    | _ => none
              | _ => none
        | _ => none
  | _ => none

/-- Match `https?://` at the head; on success return the matched scheme
characters and the remainder. -/
def httpScheme : List Char → Option (List Char × List Char)
  | 'h' :: 't' :: 't' :: 'p' :: 's' :: ':' :: '/' :: '/' :: rest =>
      some ((['h', 't', 't', 'p', 's', ':', '/', '/']), rest)
  | 'h' :: 't' :: 't' :: 'p' :: ':' :: '/' :: '/' :: rest =>
      some ((['h', 't', 't', 'p', ':', '/', '/']), rest)
  | _ => none

/-- Try `N_m3u8DL-RE\s+"(https?://[^"\s]+)"` anchored at the head of the
char list, returning the capture group (the URL). -/
def m3u8At : List Char → Option String
  | 'N' :: '_' :: 'm' :: '3' :: 'u' :: '8' :: 'D' :: 'L' :: '-' :: 'R' :: 'E' :: rest =>
      let ws := rest.takeWhile Char.isWhitespace
      if ws.isEmpty then none
      else
        match rest.drop ws.length with
        | '"' :: rest2 =>
            match httpScheme rest2 with
            | some (scheme, rest3) =>
                let body := rest3.takeWhile (fun c => c ≠ '"' && !c.isWhitespace)
                if body.isEmpty then none
                else
                  match rest3.drop body.length with
                  | '"' :: _ => some (String.mk (scheme ++ body))
                  | _ => none
            | none => none
        | _ => none
  | _ => none

/-- Model of `re.search` for the `N_m3u8DL-RE` pattern: first position
where `m3u8At` matches. -/
def m3u8Search : List Char → Option String
  | [] => none
  | c :: rest =>
      match m3u8At (c :: rest) with
      | some url => some url
      | none => m3u8Search rest

/-- The parser's loop state: the two cursors, the two pending labels and
the accumulated catalogue. -/
structure ParseState where
  subject : Option String
  chapter : Option String
  lastLecture : Option String
  lastDppVideo : Option String
  data : Catalogue
deriving DecidableEq

/-- The initial parser state. -/
def ParseState.init : ParseState := ⟨none, none, none, none, []⟩

/-- Python truthiness of the `Optional[str]` parser variables: `None`
and `""` are falsy. -/
def truthy : Option String → Bool
  | none => false
  | some s => s ≠ ""

/-- One iteration of the `parse_file` loop (lines 78-102), translated
branch by branch.  Note the source quirks kept here: the subject,
chapter and `set "..."` patterns run on the ANSI-stripped `line`, while
the URL pattern runs on `raw_line`; a subject marker resets the chapter
cursor; the URL branch tests `last_lecture and current_subject and
current_chapter` by Python truthiness and consumes the pending label it
uses. -/
def parseLine (st : ParseState) (rawLine : String) : ParseState :=
  let line := remove_ansi rawLine
  match markerRest "[SUBJECT]" line with
  | some s => { st with subject := some s, chapter := none }
  | none =>
  match markerRest "[CHAPTER]" line with
  | some c => { st with chapter := some c }
  | none =>
  match varMatch line.data with
  | some (g1, g2) =>
      let varName := pyLower (pyStrip g1)
      let varVal := pyStrip g2
      if pyStartsWith varName "lecture" then { st with lastLecture := some varVal }
      else if pyStartsWith varName "dpp_video" then { st with lastDppVideo := some varVal }
      else st
  | none =>
  match m3u8Search rawLine.data with
  | some url0 =>
      let url := pyStrip url0
      if truthy st.lastLecture && truthy st.subject && truthy st.chapter then
        { st with
          data := addItem st.data (st.subject.getD "") (st.chapter.getD "")
            (Chapter.addLecture (st.lastLecture.getD "", url)),
          lastLecture := none }
      else if truthy st.lastDppVideo && truthy st.subject && truthy st.chapter then
        { st with
          data := addItem st.data (st.subject.getD "") (st.chapter.getD "")
            (Chapter.addDpp (st.lastDppVideo.getD "", url)),
          lastDppVideo := none }
      else st
  | none => st

/-- Embedding of `parse_file` on the already-read text: fold the line
step over the lines (the source iterates `text.splitlines()`). -/
def parse_file (lineList : List String) : Catalogue :=
  (lineList.foldl parseLine ParseState.init).data

/-! ### The per-item transfer loop
(`fullbatch.py`, `process_downloads`, lines 430-466)

Each iteration of `for name, url in to_process` either succeeds or
raises.  In pyrogram, `FloodWait` derives from `RPCError`, which
derives from `Exception` — not from `asyncio.CancelledError` — so the
`except asyncio.CancelledError` / `except Exception` chain of the loop
sends a `FloodWait` down the generic error branch.  The collaborator
behaviour of one item is summarised by an `ItemOutcome`. -/

/-- What the collaborator calls of one item do: complete, or raise one
of the exceptions distinguished by the loop's `except` chain. -/
inductive ItemOutcome where
  | success
  | raiseCancelled
  | raiseFloodWait (seconds : ℕ)
  | raiseError (msg : String)
deriving DecidableEq, Repr

/-- The visible effects of the loop: the two counters, the chat
messages sent, the sleeps performed, which items were attempted, the
session's cancel flag and whether the loop `return`ed early. -/
structure RunState where
  count : ℕ
  total_uploaded : ℕ
  notifications : List String
  sleeps : List ℕ
  attempted : List String
  cancel : Bool
  stopped : Bool
deriving DecidableEq, Repr

/-- Loop state at entry (`count = start_idx` is irrelevant to the
claims, so the counters start wherever the caller says). -/
def RunState.start (count : ℕ) : RunState :=
  ⟨count, 0, [], [], [], false, false⟩

/-- The `str(e)` text of a pyrogram `FloodWait`. -/
def floodWaitText (seconds : ℕ) : String :=
  "Telegram says: [420 FLOOD_WAIT_X] - A wait of " ++ toString seconds ++
    " seconds is required"

/-- The `❌ Error with <name> <error>` message of line 465. -/
def errorNotif (name msg : String) : String :=
  "Error with " ++ name ++ ": " ++ msg

/-- One iteration of the item loop, lines 430-466: check the cancel
flag, attempt the item, and dispatch on what it raised.  `success`
increments both counters and sleeps 1 second; `CancelledError` returns
from the coroutine; every other exception (including `FloodWait`) logs,
notifies the operator and `continue`s. -/
def processItem (st : RunState) (name : String) (out : ItemOutcome) : RunState :=
  if st.stopped then st
  else if st.cancel then
    { st with stopped := true, notifications := st.notifications ++ ["cancelled"] }
  else
    let st := { st with attempted := st.attempted ++ [name] }
    match out with
    | .success =>
        { st with count := st.count + 1, total_uploaded := st.total_uploaded + 1,
                  sleeps := st.sleeps ++ [1] }
    | .raiseCancelled => { st with stopped := true }
    | .raiseFloodWait d =>
        { st with notifications := st.notifications ++ [errorNotif name (floodWaitText d)] }
    | .raiseError msg =>
        { st with notifications := st.notifications ++ [errorNotif name msg] }

/-- The whole item loop over a work list with its outcomes. -/
def runItems (items : List (String × ItemOutcome)) (st : RunState) : RunState :=
  items.foldl (fun s p => processItem s p.1 p.2) st

/-- Number of items whose collaborators succeed. -/
def numSuccesses (items : List (String × ItemOutcome)) : ℕ :=
  (items.filter (fun p => p.2 = ItemOutcome.success)).length

/-! ### The progress reporter (`utils.py`, `progress_bar`, lines 95-121)

The float arithmetic of the source is exact on the rationals, so the
metrics are computed over `ℚ`.  The shared `Timer` throttle consults
wall-clock time and is outside the model; `diff = now - start` is an
input. -/

/-- Python `round()` on a rational: nearest integer, ties to even
(`f % 2 = 0` is evenness; `Rat.floor` is the kernel-executable floor). -/
def pyRound (q : ℚ) : ℤ :=
  let f := q.floor
  let r := qsub q (Rat.divInt f 1)
  if qltb r (Rat.divInt 1 2) then f
  else if qltb (Rat.divInt 1 2) r then f + 1
  else if f % 2 = 0 then f else f + 1

/-- The metrics `progress_bar` computes before formatting.  The source
encodes an unknown ETA as `eta_seconds = -1` and formats `eta_seconds`
only when it is `> 0` (line 121), which `etaDisplayed` captures. -/
structure PBar where
  elapsed : ℤ
  speed : ℚ
  percent : ℚ
  remainingBytes : ℚ
  etaSeconds : ℚ
deriving DecidableEq, Repr

/-- `hrt(eta_seconds) if eta_seconds > 0 else "-"`: the ETA the operator
sees, `none` meaning the `"-"` (unknown) display. -/
def PBar.etaDisplayed (m : PBar) : Option ℚ :=
  if qltb 0 m.etaSeconds then some m.etaSeconds else none

/-- Embedding of the numeric part of `progress_bar` (lines 95-121):
`none` models the `diff < 1` early return; otherwise the computed
metrics, with the `total > 0` guard exactly as in the source. -/
def progress_bar (current total : ℕ) (diff : ℚ) : Option PBar :=
  if qltb diff 1 then none
  else
    let elapsed : ℤ := pyRound diff
    let speed : ℚ := if elapsed > 0 then qdiv (current : ℚ) (Rat.divInt elapsed 1) else 0
    if 0 < total then
      some { elapsed := elapsed, speed := speed,
             percent := qdiv (qmul (current : ℚ) 100) ((total : ℕ) : ℚ),
             remainingBytes := qsub ((total : ℕ) : ℚ) ((current : ℕ) : ℚ),
             etaSeconds := if qltb 0 speed then
                 qdiv (qsub ((total : ℕ) : ℚ) ((current : ℕ) : ℚ)) speed
               else -1 }
    else
      some { elapsed := elapsed, speed := speed, percent := 0,
             remainingBytes := 0, etaSeconds := -1 }

/-! ### The per-conversation session registry
(`fullbatch.py`, lines 166-167, 230-236, 387-388)

`user_state` and `download_tasks` are process-wide dicts keyed by chat
id; `process_downloads` runs as a task that polls the `"cancel"` field
of the state dict it captured when it was created.  One chat's slice of
that machinery is modelled here; session dicts are numbered so that the
old and the new session object can be told apart. -/

/-- One chat's view of the global dicts: which session dict
`user_state[chat]` holds, which session's pipeline task
`download_tasks[chat]` holds, and each session dict's `"cancel"`
field. -/
structure ChatState where
  sessionId : Option ℕ
  taskSession : Option ℕ
  cancelFlag : ℕ → Bool

/-- Embedding of `handle_script` receiving a new document (lines
230-236): a fresh state dict (with `cancel = False`) replaces
`user_state[chat]`.  `download_tasks` is not touched and no
cancellation is issued — translated from what the handler does, which
is the point at issue. -/
def handle_script (newId : ℕ) (s : ChatState) : ChatState :=
  { sessionId := some newId,
    taskSession := s.taskSession,
    cancelFlag := fun k => if k = newId then false else s.cancelFlag k }

/-- A session's pipeline keeps processing items iff its task is still
registered and the cancel flag of the state dict it captured is unset
(the loop's only exit points besides exhaustion, lines 431-432 and
461-462). -/
def pipelineActive (s : ChatState) (sess : ℕ) : Bool :=
  (s.taskSession == some sess) && !(s.cancelFlag sess)

/-! ## Shared helper lemmas -/

/-- A slice `links[k-1:]` past the end of the list is empty. -/
theorem to_process_nil_of_gt (links : List (String × String)) (k : ℤ)
    (h : (links.length : ℤ) < k) : to_process links k = [] := by
  unfold to_process
  by_cases h1 : k > 1
  · rw [if_pos h1]
    apply List.drop_eq_nil_of_le
    omega
  · rw [if_neg h1]
    have : links.length = 0 := by omega
    exact List.length_eq_zero.mp this

/-! ## C1: start-index clipping -/

/-- C1: for every subject item list with `N` items and every requested
start index `k ≥ 1`, the processed sub-list is the suffix starting at
position `k`; it has exactly `max 0 (N - k + 1)` items, equals the full
list for `k = 1`, and is empty (not an error) for `k > N`. -/
theorem C1_start_index_clipping (links : List (String × String)) (k : ℤ)
    (hk : 1 ≤ k) :
    to_process links k = links.drop (k - 1).toNat ∧
    to_process links k <:+ links ∧
    ((to_process links k).length : ℤ) = max 0 ((links.length : ℤ) - k + 1) ∧
    (k = 1 → to_process links k = links) ∧
    ((links.length : ℤ) < k → to_process links k = []) := by
  have hdrop : to_process links k = links.drop (k - 1).toNat := by
    unfold to_process
    by_cases h1 : k > 1
    · rw [if_pos h1]
    · rw [if_neg h1]
      have : k = 1 := by omega
      simp [this]
  refine ⟨hdrop, ?_, ?_, ?_, fun h => to_process_nil_of_gt links k h⟩
  · rw [hdrop]; exact List.drop_suffix _ _
  · rw [hdrop, List.length_drop]
    have hnn : (0 : ℤ) ≤ k - 1 := by omega
    have : ((k - 1).toNat : ℤ) = k - 1 := Int.toNat_of_nonneg hnn
    omega
  · intro h
    rw [hdrop, h]
    simp

/-- Witness for C1 at a two-item list and `k = 3`. -/
theorem C1_start_index_clipping_witness :
    to_process [("a", "u"), ("b", "v")] 3 = [] ∧
    ((to_process [("a", "u"), ("b", "v")] 3).length : ℤ) =
      max 0 (((["x"].length : ℤ) + 1) - 3 + 1) := by
  have h := C1_start_index_clipping [("a", "u"), ("b", "v")] 3 (by decide)
  exact ⟨h.2.2.2.2 (by decide), by simpa using h.2.2.1⟩

/-! ## C4: the select/unselect-all toggle -/

/-- C4 counterexample: from the proper nonempty selection
`{"A"} ⊂ {"A", "B"}`, two presses of the toggle yield the empty set,
not the original selection — the toggle is not an involution on all
selection states. -/
theorem C4_toggle_all_not_involution :
    toggle_all ["A", "B"] (toggle_all ["A", "B"] {"A"}) ≠ ({"A"} : Finset String) := by
  decide

/-- C4 amended: the toggle is an involution on the states the button
itself produces — the empty and the full selection.  Applying it twice
to an empty or full selection returns the original set. -/
theorem C4_toggle_all_involution_on_empty_or_full (subs : List String)
    (sel : Finset String) (hnd : subs.Nodup)
    (h : sel = ∅ ∨ sel = subs.toFinset) :
    toggle_all subs (toggle_all subs sel) = sel := by
  have hcard : subs.toFinset.card = subs.length := List.toFinset_card_of_nodup hnd
  rcases eq_or_ne subs [] with hs | hs
  · subst hs
    have h0 : sel = ∅ := by rcases h with h | h <;> simp [h]
    subst h0
    simp [toggle_all]
  · have hlen : subs.length ≠ 0 := fun hl => hs (List.length_eq_zero.mp hl)
    have t1 : toggle_all subs ∅ = subs.toFinset := by
      unfold toggle_all
      rw [if_neg]
      rintro ⟨h1, -⟩
      exact hlen (by simpa using h1.symm)
    have t2 : toggle_all subs subs.toFinset = ∅ := by
      unfold toggle_all
      rw [if_pos ⟨hcard, hs⟩]
    rcases h with h | h <;> subst h
    · rw [t1, t2]
    · rw [t2, t1]

/-- Witness for the amended C4 at `subs = ["A"]`, `sel = ∅`. -/
theorem C4_toggle_all_involution_witness :
    toggle_all ["A"] (toggle_all ["A"] ∅) = ∅ :=
  C4_toggle_all_involution_on_empty_or_full ["A"] ∅ (by decide) (Or.inl rfl)

/-! ## C5: starting a new upload does not stop the old pipeline -/

/-- C5: a chat has session 0's pipeline task running
(`download_tasks[chat]` holds it, its `cancel` flag is unset) when a new
script upload creates session 1.  `handle_script` replaces
`user_state[chat]` but neither cancels the old task nor sets the old
session's `cancel` flag, so the old pipeline is still active and keeps
consuming the old catalogue — contradicting the no-zombie-session rule
of the spec. -/
theorem C5_new_upload_leaves_old_pipeline_running :
    (handle_script 1 ⟨some 0, some 0, fun _ => false⟩).sessionId = some 1 ∧
    (handle_script 1 ⟨some 0, some 0, fun _ => false⟩).taskSession = some 0 ∧
    (handle_script 1 ⟨some 0, some 0, fun _ => false⟩).cancelFlag 0 = false ∧
    pipelineActive (handle_script 1 ⟨some 0, some 0, fun _ => false⟩) 0 = true :=
  ⟨rfl, rfl, rfl, rfl⟩

/-! ## C6: custom start-index coercion -/

/-- C6 counterexample: with a subject whose flattened list has 2 items,
the custom entry `"99"` (out of range above) is stored as 99 by the
`AwaitingStartIndex` handler of `fullbatch.py`, not coerced to 1 (the
separate `/upload` flow of `main.py` does coerce it, shown for
contrast). -/
theorem C6_out_of_range_entry_kept :
    (subjectItems [("Ch 1", ⟨[("L1", "u1"), ("L2", "u2")], []⟩)]).length = 2 ∧
    custom_start_index "99" = 99 ∧
    custom_start_index "99" ≠ 1 ∧
    main_start_index "99" 2 = 1 := by
  decide

/-- C6 amended: a non-numeric entry or an entry below 1 is silently
coerced to 1; an entry above the subject's item count is stored
unchanged, and the pipeline's clipping then yields an empty work set;
in every case a start index `≥ 1` is recorded. -/
theorem C6_custom_index_coercion (text : String) (links : List (String × String)) :
    1 ≤ custom_start_index text ∧
    (pyInt (pyStrip text) = none → custom_start_index text = 1) ∧
    (∀ i, pyInt (pyStrip text) = some i → i < 1 → custom_start_index text = 1) ∧
    (∀ i, pyInt (pyStrip text) = some i → 1 ≤ i → custom_start_index text = i) ∧
    ((links.length : ℤ) < custom_start_index text →
      to_process links (custom_start_index text) = []) := by
  refine ⟨?_, ?_, ?_, ?_, fun h => to_process_nil_of_gt links _ h⟩
  · unfold custom_start_index
    rcases hp : pyInt (pyStrip text) with - | i
    · simp
    · by_cases hi : i < 1
      · simp [hi]
      · simp only [if_neg hi]
        omega
  · intro h; simp [custom_start_index, h]
  · intro i h hi; simp [custom_start_index, h, hi]
  · intro i h hi
    simp only [custom_start_index, h]
    rw [if_neg (by omega)]

/-- Witness for the amended C6: the non-numeric entry `"abc"` coerces
to 1, and the in-range entry `"5"` on an empty work list clips to an
empty work set. -/
theorem C6_custom_index_coercion_witness :
    custom_start_index "abc" = 1 ∧
    to_process [] (custom_start_index "5") = [] :=
  ⟨(C6_custom_index_coercion "abc" []).2.1 (by decide),
   (C6_custom_index_coercion "5" []).2.2.2.2 (by decide)⟩

/-! ## C2: FloodWait during an item is not retried -/

/-- C2 counterexample: a work plan whose single item `"L1"` raises
`FloodWait(5)`.  The run performs no sleep at all (in particular none of
`≥ 5` seconds), attempts `"L1"` exactly once (no retry), records an
error notification for it, and uploads nothing — contradicting the
claim that the caller sleeps `≥ D` and retries the item. -/
theorem C2_floodwait_skipped_counterexample :
    runItems [("L1", .raiseFloodWait 5)] (RunState.start 1) =
      { count := 1, total_uploaded := 0,
        notifications := [errorNotif "L1" (floodWaitText 5)],
        sleeps := [], attempted := ["L1"], cancel := false, stopped := false } := by
  decide

/-- C2 amended: a `FloodWait(D)` raised by an item's download or upload
is caught by the generic `except Exception` branch: the pipeline sleeps
nothing, sends an error notification naming the item, does not count it
as uploaded, and moves on to the remaining items — the item is skipped,
not retried. -/
theorem C2_floodwait_takes_generic_error_path (name : String) (d : ℕ)
    (rest : List (String × ItemOutcome)) (st : RunState)
    (h1 : st.stopped = false) (h2 : st.cancel = false) :
    runItems ((name, ItemOutcome.raiseFloodWait d) :: rest) st =
      runItems rest
        { st with attempted := st.attempted ++ [name],
                  notifications := st.notifications ++ [errorNotif name (floodWaitText d)] } := by
  show runItems rest (processItem st name (ItemOutcome.raiseFloodWait d)) = _
  rw [processItem, if_neg (by rw [h1]; exact Bool.false_ne_true),
    if_neg (by rw [h2]; exact Bool.false_ne_true)]

/-- Witness for the amended C2 at a concrete two-item plan. -/
theorem C2_floodwait_generic_path_witness :
    runItems [("L1", ItemOutcome.raiseFloodWait 5), ("L2", ItemOutcome.success)]
        (RunState.start 1) =
      runItems [("L2", ItemOutcome.success)]
        { RunState.start 1 with
          attempted := [] ++ ["L1"],
          notifications := [] ++ [errorNotif "L1" (floodWaitText 5)] } :=
  C2_floodwait_takes_generic_error_path "L1" 5 [("L2", ItemOutcome.success)]
    (RunState.start 1) rfl rfl

/-! ## C3: generic-error isolation and success counting -/

/-- `processItem` never changes the session's cancel flag. -/
theorem processItem_cancel (st : RunState) (name : String) (o : ItemOutcome) :
    (processItem st name o).cancel = st.cancel := by
  cases o <;> unfold processItem <;> split_ifs <;> rfl

/-- A message already sent stays sent for the rest of the run. -/
theorem runItems_notifications_mono (items : List (String × ItemOutcome))
    (st : RunState) (x : String) (hx : x ∈ st.notifications) :
    x ∈ (runItems items st).notifications := by
  induction items generalizing st with
  | nil => exact hx
  | cons p rest ih =>
      obtain ⟨n, o⟩ := p
      have hstep : runItems ((n, o) :: rest) st =
          runItems rest (processItem st n o) := rfl
      rw [hstep]
      apply ih
      cases o <;> rw [processItem] <;> split_ifs <;>
        simp_all [List.mem_append]

/-- C3: on a plan where no collaborator raises `CancelledError`, the
run never aborts, the batch counter ends at exactly the number of
successful items, and every item that raised a generic error got an
operator notification carrying its label and the error text. -/
theorem C3_generic_error_isolation (items : List (String × ItemOutcome))
    (st : RunState) (h1 : st.stopped = false) (h2 : st.cancel = false)
    (h3 : ∀ p ∈ items, p.2 ≠ ItemOutcome.raiseCancelled) :
    (runItems items st).total_uploaded = st.total_uploaded + numSuccesses items ∧
    (runItems items st).stopped = false ∧
    ∀ name msg, (name, ItemOutcome.raiseError msg) ∈ items →
      errorNotif name msg ∈ (runItems items st).notifications := by
  induction items generalizing st with
  | nil =>
      refine ⟨by simp [runItems, numSuccesses], h1, ?_⟩
      intro name msg hmem
      exact absurd hmem (List.not_mem_nil _)
  | cons p rest ih =>
      obtain ⟨name0, o0⟩ := p
      have ho0 : o0 ≠ ItemOutcome.raiseCancelled := h3 (name0, o0) (List.mem_cons_self _ _)
      have hstep : runItems ((name0, o0) :: rest) st =
          runItems rest (processItem st name0 o0) := rfl
      have h3' : ∀ p ∈ rest, p.2 ≠ ItemOutcome.raiseCancelled :=
        fun p hp => h3 p (List.mem_cons_of_mem _ hp)
      cases o0 with
      | success =>
          have hpi : processItem st name0 ItemOutcome.success =
              { st with attempted := st.attempted ++ [name0],
                        count := st.count + 1,
                        total_uploaded := st.total_uploaded + 1,
                        sleeps := st.sleeps ++ [1] } := by
            rw [processItem, if_neg (by rw [h1]; exact Bool.false_ne_true),
              if_neg (by rw [h2]; exact Bool.false_ne_true)]
          obtain ⟨iht, ihs, ihn⟩ := ih (processItem st name0 ItemOutcome.success)
            (by rw [hpi]; exact h1) (by rw [hpi]; exact h2) h3'
          refine ⟨?_, by rw [hstep]; exact ihs, ?_⟩
          · rw [hstep, iht, hpi]
            simp [numSuccesses, List.filter]
            omega
          · intro name msg hmem
            rw [hstep]
            apply ihn
            rcases List.mem_cons.mp hmem with h | h
            · exact absurd (congrArg Prod.snd h) (by simp)
            · exact h
      | raiseCancelled => exact absurd rfl ho0
      | raiseFloodWait d =>
          have hpi : processItem st name0 (ItemOutcome.raiseFloodWait d) =
              { st with attempted := st.attempted ++ [name0],
                        notifications := st.notifications ++
                          [errorNotif name0 (floodWaitText d)] } := by
            rw [processItem, if_neg (by rw [h1]; exact Bool.false_ne_true),
              if_neg (by rw [h2]; exact Bool.false_ne_true)]
          obtain ⟨iht, ihs, ihn⟩ := ih (processItem st name0 (ItemOutcome.raiseFloodWait d))
            (by rw [hpi]; exact h1) (by rw [hpi]; exact h2) h3'
          refine ⟨?_, by rw [hstep]; exact ihs, ?_⟩
          · rw [hstep, iht, hpi]
            simp [numSuccesses, List.filter]
          · intro name msg hmem
            rw [hstep]
            apply ihn
            rcases List.mem_cons.mp hmem with h | h
            · exact absurd (congrArg Prod.snd h) (by simp)
            · exact h
      | raiseError msg0 =>
          have hpi : processItem st name0 (ItemOutcome.raiseError msg0) =
              { st with attempted := st.attempted ++ [name0],
                        notifications := st.notifications ++
                          [errorNotif name0 msg0] } := by
            rw [processItem, if_neg (by rw [h1]; exact Bool.false_ne_true),
              if_neg (by rw [h2]; exact Bool.false_ne_true)]
          obtain ⟨iht, ihs, ihn⟩ := ih (processItem st name0 (ItemOutcome.raiseError msg0))
            (by rw [hpi]; exact h1) (by rw [hpi]; exact h2) h3'
          refine ⟨?_, by rw [hstep]; exact ihs, ?_⟩
          · rw [hstep, iht, hpi]
            simp [numSuccesses, List.filter]
          · intro name msg hmem
            rw [hstep]
            rcases List.mem_cons.mp hmem with h | h
            · have hmsg : msg = msg0 := by
                have := congrArg Prod.snd h
                simpa using this
              have hname : name = name0 := by
                have := congrArg Prod.fst h
                simpa using this
              subst hmsg; subst hname
              apply runItems_notifications_mono
              rw [hpi]
              simp
            · exact ihn name msg h

/-- Witness for C3: two items, the first fails with a generic transfer
error, the second succeeds — the batch total is 1, the run did not
abort, and a notification naming `"L1"` with the error text was sent. -/
theorem C3_generic_error_isolation_witness :
    (runItems [("L1", ItemOutcome.raiseError "transfer error"),
               ("L2", ItemOutcome.success)] (RunState.start 1)).total_uploaded =
        0 + numSuccesses [("L1", ItemOutcome.raiseError "transfer error"),
                          ("L2", ItemOutcome.success)] ∧
    (runItems [("L1", ItemOutcome.raiseError "transfer error"),
               ("L2", ItemOutcome.success)] (RunState.start 1)).stopped = false ∧
    errorNotif "L1" "transfer error" ∈
      (runItems [("L1", ItemOutcome.raiseError "transfer error"),
                 ("L2", ItemOutcome.success)] (RunState.start 1)).notifications := by
  have h := C3_generic_error_isolation
    [("L1", ItemOutcome.raiseError "transfer error"), ("L2", ItemOutcome.success)]
    (RunState.start 1) rfl rfl (by decide)
  exact ⟨h.1, h.2.1, h.2.2 "L1" "transfer error" (by decide)⟩

/-! ## C7: per-subject flattening order -/

/-- Appending elements one by one is appending the mapped list. -/
theorem foldl_append_map {α β : Type} (f : α → β) (l : List α) (acc : List β) :
    l.foldl (fun a p => a ++ [f p]) acc = acc ++ l.map f := by
  induction l generalizing acc with
  | nil => simp
  | cons p rest ih => simp [ih]

/-- C7: the flattened item list of a subject is built chapter by
chapter in catalogue order; inside each chapter the `"Lectures"` items
come first and the `"DPP Videos"` items second, each group sorted by
label; every label is prefixed with `"CH "`, the chapter name's first
digit run zero-padded to two digits, and `" "` — or with nothing when
the chapter name has no digit. -/
theorem C7_flatten_order (chapters : List (String × Chapter)) :
    subjectItems chapters = chapters.flatMap (fun c =>
      (sortByLabel c.2.lectures ++ sortByLabel c.2.dppVideos).map
        (fun p => ((match firstDigitRun c.1 with
                    | some num => "CH " ++ zfill 2 num ++ " "
                    | none => "") ++ p.1, p.2))) := by
  have key : ∀ (chs : List (String × Chapter)) (acc : List (String × String)),
      chs.foldl
        (fun items c =>
          let pfx := chapPfx c.1
          let items1 := (sortByLabel c.2.lectures).foldl
            (fun acc p => acc ++ [(pfx ++ p.1, p.2)]) items
          (sortByLabel c.2.dppVideos).foldl
            (fun acc p => acc ++ [(pfx ++ p.1, p.2)]) items1) acc
      = acc ++ chs.flatMap (fun c =>
          (sortByLabel c.2.lectures ++ sortByLabel c.2.dppVideos).map
            (fun p => (chapPfx c.1 ++ p.1, p.2))) := by
    intro chs
    induction chs with
    | nil => intro acc; simp
    | cons c rest ih =>
        intro acc
        simp only [List.foldl_cons, List.flatMap_cons]
        rw [foldl_append_map, foldl_append_map, ih]
        simp [List.map_append, List.append_assoc]
  have h0 := key chapters []
  simpa [subjectItems, chapPfx] using h0

/-! ## C9: progress metrics -/

/-- C9: whenever `progress_bar` emits metrics, then: with `total = 0`
the percentage is 0 and the ETA is the unknown sentinel (displayed as
unknown) — no division is attempted; in every case the rate is
`current / elapsed` when `elapsed > 0` and 0 otherwise; and with a
known total the remaining amount is `total - current` and the ETA is
`remaining / rate` when the rate is positive and the unknown sentinel
otherwise. -/
theorem C9_progress_metrics (current total : ℕ) (diff : ℚ) (m : PBar)
    (h : progress_bar current total diff = some m) :
    (total = 0 → m.percent = 0 ∧ m.etaSeconds = -1 ∧ m.etaDisplayed = none) ∧
    m.speed = (if m.elapsed > 0 then (current : ℚ) / ((m.elapsed : ℤ) : ℚ) else 0) ∧
    (0 < total →
      m.percent = (current : ℚ) * 100 / (total : ℚ) ∧
      m.remainingBytes = (total : ℚ) - (current : ℚ) ∧
      m.etaSeconds =
        (if 0 < m.speed then ((total : ℚ) - (current : ℚ)) / m.speed else -1)) := by
  rw [progress_bar] at h
  by_cases h1 : qltb diff 1 = true
  · rw [if_pos h1] at h
    exact absurd h (by simp)
  · rw [if_neg h1] at h
    simp only [] at h
    by_cases h2 : 0 < total
    · rw [if_pos h2] at h
      have hm := (Option.some.inj h).symm
      subst hm
      refine ⟨fun h0 => absurd h0 (by omega), ?_, fun _ => ⟨?_, ?_, ?_⟩⟩
      · by_cases he : pyRound diff > 0 <;>
          simp [he, qdiv_eq, Rat.divInt_one]
      · simp [qdiv_eq, qmul_eq]
      · simp [qsub_eq]
      · by_cases hs : (0 : ℚ) <
            (if pyRound diff > 0 then
              qdiv (current : ℚ) (Rat.divInt (pyRound diff) 1) else 0)
        · simp only [PBar.etaSeconds, PBar.speed]
          rw [if_pos (qltb_eq 0 _ |>.mpr hs), if_pos hs, qdiv_eq, qsub_eq]
        · simp only [PBar.etaSeconds, PBar.speed]
          rw [if_neg (fun hq => hs ((qltb_eq 0 _).mp hq)), if_neg hs]
    · rw [if_neg h2] at h
      have hm := (Option.some.inj h).symm
      subst hm
      refine ⟨fun _ => ⟨rfl, rfl,
        by simp [PBar.etaDisplayed, (by decide : qltb 0 (-1 : ℚ) = false)]⟩,
        ?_, fun h0 => absurd h0 h2⟩
      by_cases he : pyRound diff > 0 <;>
        simp [he, qdiv_eq, Rat.divInt_one]

/-- Witness for C9 at `current = 50`, `total = 0`, `diff = 2`: the
reporter emits 0%, an unknown (sentinel) ETA, an unknown ETA display,
and a rate of `50 / 2`. -/
theorem C9_progress_metrics_witness :
    (progress_bar 50 0 2 =
      some ⟨2, Rat.divInt 25 1, 0, 0, -1⟩) ∧
    ((⟨2, Rat.divInt 25 1, 0, 0, -1⟩ : PBar).percent = 0 ∧
      (⟨2, Rat.divInt 25 1, 0, 0, -1⟩ : PBar).etaSeconds = -1 ∧
      (⟨2, Rat.divInt 25 1, 0, 0, -1⟩ : PBar).etaDisplayed = none) :=
  ⟨by decide,
   (C9_progress_metrics 50 0 2 ⟨2, Rat.divInt 25 1, 0, 0, -1⟩ (by decide)).1 rfl⟩

/-! ## C8 and C10: the parser's URL-line guard -/

/-- A line on which the subject, chapter and variable patterns fail and
the `N_m3u8DL-RE` pattern captures `url` — the shape that reaches the
URL branch of the `parse_file` loop. -/
def isUrlLine (line url : String) : Prop :=
  markerRest "[SUBJECT]" (remove_ansi line) = none ∧
  markerRest "[CHAPTER]" (remove_ansi line) = none ∧
  varMatch (remove_ansi line).data = none ∧
  m3u8Search line.data = some url

instance (line url : String) : Decidable (isUrlLine line url) := by
  unfold isUrlLine; infer_instance

/-- On a URL line, `parseLine` is exactly the three-way guard of lines
95-102 of `parse_file`. -/
theorem parseLine_url (st : ParseState) (line url : String)
    (h : isUrlLine line url) :
    parseLine st line =
      (if truthy st.lastLecture && truthy st.subject && truthy st.chapter then
        { st with
          data := addItem st.data (st.subject.getD "") (st.chapter.getD "")
            (Chapter.addLecture (st.lastLecture.getD "", pyStrip url)),
          lastLecture := none }
      else if truthy st.lastDppVideo && truthy st.subject && truthy st.chapter then
        { st with
          data := addItem st.data (st.subject.getD "") (st.chapter.getD "")
            (Chapter.addDpp (st.lastDppVideo.getD "", pyStrip url)),
          lastDppVideo := none }
      else st) := by
  obtain ⟨h1, h2, h3, h4⟩ := h
  simp only [parseLine, h1, h2, h3, h4]

/-- Map lookup after an insertion-ordered update. -/
theorem lookupStr_updAssoc {β : Type} (k q : String) (d : β) (f : β → β)
    (l : List (String × β)) :
    lookupStr q (updAssoc k d f l) =
      if q = k then some (f ((lookupStr k l).getD d)) else lookupStr q l := by
  induction l with
  | nil =>
      by_cases h : q = k
      · subst h; simp [updAssoc, lookupStr]
      · simp [updAssoc, lookupStr, h, Ne.symm h]
  | cons p rest ih =>
      obtain ⟨k', v⟩ := p
      by_cases h1 : k' = k
      · subst h1
        by_cases h2 : q = k'
        · subst h2; simp [updAssoc, lookupStr]
        · simp [updAssoc, lookupStr, h2, Ne.symm h2]
      · by_cases h2 : q = k'
        · subst h2
          simp [updAssoc, lookupStr, h1, Ne.symm h1]
        · simp [updAssoc, lookupStr, h1, h2, Ne.symm h2, ih]

/-- Recording a lecture item changes no chapter's `"DPP Videos"` list. -/
theorem dppListOf_addLecture (cat : Catalogue) (s c : String)
    (it : String × String) (a b : String) :
    dppListOf (addItem cat s c (Chapter.addLecture it)) a b = dppListOf cat a b := by
  unfold dppListOf addItem
  rw [lookupStr_updAssoc]
  by_cases hs : a = s
  · rw [if_pos hs, hs]
    simp only [Option.getD_some]
    rw [lookupStr_updAssoc]
    by_cases hc : b = c
    · rw [if_pos hc, hc]
      simp [Chapter.addLecture]
    · rw [if_neg hc]
  · rw [if_neg hs]

/-- C8: a media URL line records a `(label, url)` entry only when the
subject cursor, the chapter cursor and a pending label of the matching
kind are all set (Python-truthy); the consumed pending label is cleared
in the same step; a URL line missing any of these is silently dropped
(the parser state, including the catalogue, is unchanged — never an
error). -/
theorem C8_url_line_guard (st : ParseState) (line url : String)
    (h : isUrlLine line url) :
    ((truthy st.lastLecture && truthy st.subject && truthy st.chapter) = true →
      parseLine st line =
        { st with
          data := addItem st.data (st.subject.getD "") (st.chapter.getD "")
            (Chapter.addLecture (st.lastLecture.getD "", pyStrip url)),
          lastLecture := none }) ∧
    ((truthy st.lastLecture && truthy st.subject && truthy st.chapter) = false →
     (truthy st.lastDppVideo && truthy st.subject && truthy st.chapter) = true →
      parseLine st line =
        { st with
          data := addItem st.data (st.subject.getD "") (st.chapter.getD "")
            (Chapter.addDpp (st.lastDppVideo.getD "", pyStrip url)),
          lastDppVideo := none }) ∧
    ((truthy st.lastLecture && truthy st.subject && truthy st.chapter) = false →
     (truthy st.lastDppVideo && truthy st.subject && truthy st.chapter) = false →
      parseLine st line = st) := by
  rw [parseLine_url st line url h]
  refine ⟨fun hc1 => ?_, fun hc1 hc2 => ?_, fun hc1 hc2 => ?_⟩
  · rw [if_pos hc1]
  · rw [if_neg (by simp [hc1]), if_pos hc2]
  · rw [if_neg (by simp [hc1]), if_neg (by simp [hc2])]

/-- Witness for C8: a concrete URL line in a state with subject,
chapter and a pending lecture label set records the entry under
`"Lectures"` and clears the pending label. -/
theorem C8_url_line_guard_witness :
    parseLine ⟨some "Physics", some "Ch 1", some "L1", none, []⟩
        "N_m3u8DL-RE \"https://x/a.m3u8\" --save" =
      { (⟨some "Physics", some "Ch 1", some "L1", none, []⟩ : ParseState) with
        data := addItem ([] : Catalogue) "Physics" "Ch 1"
          (Chapter.addLecture ("L1", pyStrip "https://x/a.m3u8")),
        lastLecture := none } :=
  (C8_url_line_guard ⟨some "Physics", some "Ch 1", some "L1", none, []⟩
    "N_m3u8DL-RE \"https://x/a.m3u8\" --save" "https://x/a.m3u8"
    (by decide)).1 (by decide)

/-- C10: when both a lecture label and a DPP-video label are pending
(and the subject and chapter cursors are set), the next URL line is
recorded under `"Lectures"` and the DPP label stays pending; moreover
while a lecture label is pending no URL line ever extends any
`"DPP Videos"` list, and a URL is recorded under `"DPP Videos"` exactly
in the states where no lecture label is pending but a DPP label,
subject and chapter are. -/
theorem C10_lecture_priority (st : ParseState) (line url : String)
    (h : isUrlLine line url) :
    ((truthy st.lastLecture && truthy st.subject && truthy st.chapter) = true →
      parseLine st line =
        { st with
          data := addItem st.data (st.subject.getD "") (st.chapter.getD "")
            (Chapter.addLecture (st.lastLecture.getD "", pyStrip url)),
          lastLecture := none } ∧
      (parseLine st line).lastDppVideo = st.lastDppVideo) ∧
    (truthy st.lastLecture = true →
      ∀ a b, dppListOf (parseLine st line).data a b = dppListOf st.data a b) ∧
    (truthy st.lastLecture = false →
     (truthy st.lastDppVideo && truthy st.subject && truthy st.chapter) = true →
      parseLine st line =
        { st with
          data := addItem st.data (st.subject.getD "") (st.chapter.getD "")
            (Chapter.addDpp (st.lastDppVideo.getD "", pyStrip url)),
          lastDppVideo := none }) := by
  have hwhole := parseLine_url st line url h
  refine ⟨fun hc1 => ⟨?_, ?_⟩, fun hL => ?_, fun hL hc2 => ?_⟩
  · rw [hwhole, if_pos hc1]
  · rw [hwhole, if_pos hc1]
  · by_cases hc1 : (truthy st.lastLecture && truthy st.subject && truthy st.chapter) = true
    · intro a b
      rw [hwhole, if_pos hc1]
      exact dppListOf_addLecture st.data _ _ _ a b
    · have hsc : (truthy st.subject && truthy st.chapter) = false := by
        rcases Bool.eq_false_or_eq_true (truthy st.subject && truthy st.chapter) with h0 | h0
        · obtain ⟨hS, hC⟩ : truthy st.subject = true ∧ truthy st.chapter = true := by
            simpa using h0
          exact absurd (by simp [hL, hS, hC]) hc1
        · exact h0
      have hc2 : (truthy st.lastDppVideo && truthy st.subject && truthy st.chapter) = false := by
        rcases Bool.and_eq_false_iff.mp hsc with h0 | h0 <;> simp [h0]
      intro a b
      rw [hwhole, if_neg hc1, if_neg (by simp [hc2])]
  · rw [hwhole, if_neg (by simp [Bool.and_assoc, hL]), if_pos hc2]

/-- Witness for C10: with both labels pending, the URL goes to
`"Lectures"` and the DPP label remains pending. -/
theorem C10_lecture_priority_witness :
    parseLine ⟨some "Physics", some "Ch 1", some "L1", some "D1", []⟩
        "N_m3u8DL-RE \"https://x/a.m3u8\" --save" =
      { (⟨some "Physics", some "Ch 1", some "L1", some "D1", []⟩ : ParseState) with
        data := addItem ([] : Catalogue) "Physics" "Ch 1"
          (Chapter.addLecture ("L1", pyStrip "https://x/a.m3u8")),
        lastLecture := none } ∧
    (parseLine ⟨some "Physics", some "Ch 1", some "L1", some "D1", []⟩
        "N_m3u8DL-RE \"https://x/a.m3u8\" --save").lastDppVideo = some "D1" :=
  (C10_lecture_priority ⟨some "Physics", some "Ch 1", some "L1", some "D1", []⟩
    "N_m3u8DL-RE \"https://x/a.m3u8\" --save" "https://x/a.m3u8"
    (by decide)).1 (by decide)

end LXP
